import Mathlib

/-!
Verification of the content-streaming, registration-fields and courseware
utility modules of this repository, against their natural-language
specification.

Bytes are modelled as natural numbers; a byte string is a `List Nat`.
Python slices `data[a:b]` become `(data.drop a).take (b - a)`.
-/

namespace EdxPlatform

/-! ## Byte source: `FakeGridFsItem`
From `src/common/lib/xmodule/xmodule/tests/test_content.py`, lines 62-83.
The Python object is stateful; here every method returns the updated state. -/

structure FakeGridFsItem where
  cursor : Nat
  data : List Nat
deriving Repr, DecidableEq

/-- `self.length = len(string_data)` set by `__init__`. -/
def FakeGridFsItem.length (item : FakeGridFsItem) : Nat :=
  item.data.length

/-- `seek(position)`: set the cursor at `position`. -/
def FakeGridFsItem.seek (item : FakeGridFsItem) (position : Nat) : FakeGridFsItem :=
  { item with cursor := position }

/-- `read(chunk_size)`: return `self.data[self.cursor:self.cursor + chunk_size]`
and move the cursor forward by `chunk_size` (even if fewer bytes were returned). -/
def FakeGridFsItem.read (item : FakeGridFsItem) (chunk_size : Nat) :
    List Nat × FakeGridFsItem :=
  ((item.data.drop item.cursor).take chunk_size,
   { item with cursor := item.cursor + chunk_size })

/-! ## Content streaming
`xmodule/contentstore/content.py` (the module under test in
`test_content.py`) is not part of the visible sources, so the stream
operations are modelled from the specification. -/

/-- Modelled from the spec: the module-wide default chunk size
("default chunk size (default 1024 bytes)", spec section 4.1). -/
def STREAM_DATA_CHUNK_SIZE : Nat := 1024

/-- Modelled from the spec: the loop of `StaticContentStream.stream_data`
(`xmodule/contentstore/content.py` is missing from the sources; only its tests
are present). Per spec section 4.1 it "repeatedly seeks to the next offset
(starting at 0) and reads a fixed chunk size (default 1024 bytes) until the
cumulative bytes read equal `length`. The final chunk is truncated to exactly
the remaining byte count"; per spec section 7, a source returning fewer bytes
than requested before `length` is reached surfaces as a short-read error.
The chunk size is a positive integer per the byte-source contract of spec
section 6, hence the `0 < chunkSize` guard. -/
def streamDataFrom (chunkSize length : Nat) (item : FakeGridFsItem)
    (position : Nat) : Except String (List (List Nat)) :=
  if h : position < length ∧ 0 < chunkSize then
    let toRead := min chunkSize (length - position)
    let res := (item.seek position).read toRead
    if res.1.length = toRead then
      match streamDataFrom chunkSize length res.2 (position + toRead) with
      | .ok rest => .ok (res.1 :: rest)
      | .error e => .error e
    else
      .error "short read"
  else
    .ok []
termination_by length - position
decreasing_by
  omega

/-- Modelled from the spec: the loop of
`StaticContentStream.stream_data_in_range` after the initial seek to
`first_byte`. Per spec section 4.1 it "reads fixed-size chunks, clamping the
final chunk so the last byte returned is exactly `last_byte`"; successive
reads advance the source's cursor (spec section 3). Short reads surface as
errors (spec section 7); `0 < chunkSize` as for `streamDataFrom`. -/
def streamRangeFrom (chunkSize lastByte : Nat) (item : FakeGridFsItem)
    (position : Nat) : Except String (List (List Nat)) :=
  if h : position ≤ lastByte ∧ 0 < chunkSize then
    let toRead := min chunkSize (lastByte + 1 - position)
    let res := item.read toRead
    if res.1.length = toRead then
      match streamRangeFrom chunkSize lastByte res.2 (position + toRead) with
      | .ok rest => .ok (res.1 :: rest)
      | .error e => .error e
    else
      .error "short read"
  else
    .ok []
termination_by lastByte + 1 - position
decreasing_by
  omega

/-- Modelled from the spec: the `StaticContentStream` descriptor
("Content descriptor", spec section 3) wrapping a seekable byte source and a
declared total `length`, as constructed in the tests:
`StaticContentStream('loc', 'name', 'type', item, length=item.length)`. -/
structure StaticContentStream where
  location : String
  name : String
  content_type : String
  stream : FakeGridFsItem
  length : Nat

/-- Modelled from the spec: `stream_data()` (spec section 4.1), collecting
the lazily yielded chunks into a list. -/
def StaticContentStream.stream_data (s : StaticContentStream) :
    Except String (List (List Nat)) :=
  streamDataFrom STREAM_DATA_CHUNK_SIZE s.length s.stream 0

/-- Modelled from the spec: `stream_data_in_range(first_byte, last_byte)`
(spec section 4.1): "seeks to `first_byte`; reads fixed-size chunks, clamping
the final chunk so the last byte returned is exactly `last_byte`". -/
def StaticContentStream.stream_data_in_range (s : StaticContentStream)
    (first_byte last_byte : Nat) : Except String (List (List Nat)) :=
  streamRangeFrom STREAM_DATA_CHUNK_SIZE last_byte (s.stream.seek first_byte) first_byte

/-- The size profile of a full chunked stream over `n` remaining bytes with
chunk size `chunkSize`: every chunk before the last has the full chunk size
and the final chunk holds the remaining byte count. Proof-support
specification used to state the streaming lemmas. -/
def chunkSizes (chunkSize n : Nat) : List Nat :=
  if h : 0 < chunkSize ∧ 0 < n then
    min chunkSize n :: chunkSizes chunkSize (n - min chunkSize n)
  else
    []
termination_by n
decreasing_by
  omega

/-! ## Content descriptor: `StaticContent`
`xmodule/contentstore/content.py` is not part of the visible sources; the
descriptor is modelled from spec section 3 and the constructions exercised in
`test_content.py` (`test_thumbnail_none`). -/

/-- An asset location tuple. A "degenerate instance" in the sense of the spec
is a `ThumbnailLocation` whose fields are all `none`. -/
structure ThumbnailLocation where
  org : Option String
  course : Option String
  run : Option String
  category : Option String
  block_id : Option String
deriving Repr, DecidableEq

/-- Modelled from the spec: the `StaticContent` content descriptor (spec
section 3): `location`, `name`, `content_type`, the data, and an optional
`thumbnail_location` for which "absence is represented by the absence value
itself, not a degenerate instance". -/
structure StaticContent where
  location : String
  name : String
  content_type : String
  data : String
  last_modified_at : Option String
  thumbnail_location : Option ThumbnailLocation
  import_path : Option String

/-- Modelled from the spec: the `StaticContent` constructor with all optional
arguments supplied, as in
`StaticContent('loc', 'name', 'content_type', 'data', None, None, None)`; the
supplied `thumbnail_location` is stored unchanged. -/
def StaticContent.make (location name content_type data : String)
    (last_modified_at : Option String)
    (thumbnail_location : Option ThumbnailLocation)
    (import_path : Option String) : StaticContent :=
  { location := location, name := name, content_type := content_type,
    data := data, last_modified_at := last_modified_at,
    thumbnail_location := thumbnail_location, import_path := import_path }

/-- Modelled from the spec: the `StaticContent` constructor with the optional
trailing arguments omitted, as in
`StaticContent('loc', 'name', 'content_type', 'data')`; omitted optional
arguments default to the absence value `none`. -/
def StaticContent.makeDefault (location name content_type data : String) :
    StaticContent :=
  StaticContent.make location name content_type data none none none

/-! ## Required registration fields
From `src/openedx/core/djangoapps/user_authn/api/required_fields.py`.
The surrounding Django machinery (settings, the `form_fields` module, the
custom extension form) is abstracted as explicit inputs; field payloads are
abstracted as strings. -/

/-- The `form_fields` module as seen through `getattr`: `attrs s` is
`getattr(form_fields, s, None)`. A handler is applied to the
`terms_of_service` setting when the field is `honor_code` and to `none`
otherwise (non-`honor_code` handlers take no argument). -/
structure FormFields where
  attrs : String → Option (Option String → String)
  add_extension_form_field : String → String

/-- The state read by `RequiredFieldsView.get`: the configured
`valid_fields`, the keys of `custom_form.fields` (the empty list models a
falsy `custom_form`, i.e. `get_registration_extension_form()` returning
nothing), and `self._fields_setting.get("terms_of_service")`. -/
structure RequiredFieldsView where
  valid_fields : List String
  custom_form_fields : List String
  terms_of_service_setting : Option String

/-- One iteration of the loop body of `RequiredFieldsView.get`
(lines 34-46): a custom-form field goes through `add_extension_form_field`;
otherwise the handler is looked up reflectively as `add_{field}_field`
(`getattr(form_fields, f'add_{field}_field', None)`) and, when the lookup
yields `None`, the field is skipped. -/
def requiredFieldsStep (ff : FormFields) (v : RequiredFieldsView)
    (response : List (String × String)) (field : String) :
    List (String × String) :=
  if v.custom_form_fields ≠ [] ∧ field ∈ v.custom_form_fields then
    response ++ [(field, ff.add_extension_form_field field)]
  else
    match ff.attrs ("add_" ++ field ++ "_field") with
    | some field_handler =>
      if field = "honor_code" then
        response ++ [(field, field_handler v.terms_of_service_setting)]
      else
        response ++ [(field, field_handler none)]
    | none => response

/-- The `response` dictionary built by the loop of `RequiredFieldsView.get`
over the configured fields, starting from the empty dictionary. -/
def requiredFieldsResponse (ff : FormFields) (v : RequiredFieldsView) :
    List (String × String) :=
  v.valid_fields.foldl (requiredFieldsStep ff v) []

/-- Result of `RequiredFieldsView.get`: either the 400 error payload or the
200 payload of fields and extended-profile configuration. -/
inductive RequiredFieldsResult where
  | badRequest (error_code : String)
  | ok (fields : List (String × String)) (extended_profile : List String)
deriving Repr, DecidableEq

/-- `RequiredFieldsView.get` (lines 27-60): build the response mapping, then
return 400 when `valid_fields` or the response is empty, 200 otherwise. -/
def RequiredFieldsView.get (v : RequiredFieldsView) (ff : FormFields)
    (extended_profile_fields : List String) : RequiredFieldsResult :=
  let response := requiredFieldsResponse ff v
  if v.valid_fields = [] ∨ response = [] then
    .badRequest "required_fields_configured_incorrectly"
  else
    .ok response extended_profile_fields

/-! ## Courseware utilities
From `src/lms/djangoapps/courseware/utils.py`. -/

/-- `get_course_hash_value` (lines 190-201). The MD5 pipeline
`int(hashlib.md5(str(course_key).encode()).hexdigest(), base=16)` is external
library code, abstracted as an arbitrary function `md5_int_of : String → Nat`
on the string form of the key; a non-`None` `CourseKey` instance is truthy,
so `if course_key:` distinguishes exactly `some` from `none`. -/
def get_course_hash_value (md5_int_of : String → Nat)
    (course_key : Option String) : Nat :=
  let out_of_bound_value := 100
  match course_key with
  | some key => md5_int_of key % 100
  | none => out_of_bound_value

def HTTP_200_OK : Nat := 200

def HTTP_400_BAD_REQUEST : Nat := 400

def HTTP_404_NOT_FOUND : Nat := 404

/-- The remote financial-assistance service's reply, as consumed by the two
functions below: the HTTP status code and the fields extracted from
`response.json()` (`body` stands for the whole JSON payload returned on the
200 path of the application-status call). -/
structure FAResponse where
  status_code : Nat
  is_eligible : Bool
  reason : String
  message : String
  body : String
deriving Repr, DecidableEq

/-- `is_eligible_for_financial_aid` (lines 107-130), with the configuration
flag and the HTTP response as explicit inputs. The Python function returns a
`(bool, message)` pair on every explicitly handled path and falls off the end
(returning `None`, here `none`) when the configuration is enabled but the
status code is neither 200 nor 400. -/
def is_eligible_for_financial_aid (fa_enabled : Bool) (response : FAResponse) :
    Option (Bool × String) :=
  if fa_enabled then
    if response.status_code = HTTP_200_OK then
      some (response.is_eligible, response.reason)
    else if response.status_code = HTTP_400_BAD_REQUEST then
      some (false, response.message)
    else
      none
  else
    some (false, "Financial Assistance configuration is not enabled")

/-- `get_financial_assistance_application_status` (lines 133-155): returns a
pair on the 200, 400 and 404 paths and on the disabled path, and falls off
the end (returning `None`, here `none`) for any other status code. -/
def get_financial_assistance_application_status (fa_enabled : Bool)
    (response : FAResponse) : Option (Bool × String) :=
  if fa_enabled then
    if response.status_code = HTTP_200_OK then
      some (true, response.body)
    else if response.status_code = HTTP_400_BAD_REQUEST
        ∨ response.status_code = HTTP_404_NOT_FOUND then
      some (false, response.message)
    else
      none
  else
    some (false, "Financial Assistance configuration is not enabled")

/-! ## Chunking lemmas -/

lemma chunkSizes_zero (chunkSize : Nat) : chunkSizes chunkSize 0 = [] := by
  rw [chunkSizes]
  simp

lemma chunkSizes_eq_cons (chunkSize n : Nat) (hcs : 0 < chunkSize) (hn : 0 < n) :
    chunkSizes chunkSize n
      = min chunkSize n :: chunkSizes chunkSize (n - min chunkSize n) := by
  rw [chunkSizes]
  rw [dif_pos ⟨hcs, hn⟩]

lemma chunkSizes_sum (chunkSize : Nat) (hcs : 0 < chunkSize) :
    ∀ n, (chunkSizes chunkSize n).sum = n := by
  intro n
  induction n using Nat.strong_induction_on with
  | _ n ih =>
    cases n with
    | zero => simp [chunkSizes_zero]
    | succ m =>
      rw [chunkSizes_eq_cons _ _ hcs (by omega), List.sum_cons,
        ih _ (by omega)]
      omega

/-- Master lemma for `streamDataFrom` on an adequate source: starting at any
`position ≤ length` on a source holding at least `length` bytes, the stream
succeeds, its chunk sizes follow `chunkSizes`, and its concatenation is the
remaining slice of the data. -/
lemma streamDataFrom_ok (cs len : Nat) (data : List Nat) (hcs : 0 < cs)
    (hlen : len ≤ data.length) :
    ∀ n c p, p ≤ len → len - p = n →
      ∃ chunks, streamDataFrom cs len ⟨c, data⟩ p = .ok chunks ∧
        chunks.map List.length = chunkSizes cs (len - p) ∧
        chunks.flatten = (data.drop p).take (len - p) := by
  intro n
  induction n using Nat.strong_induction_on with
  | _ n ih =>
    intro c p hp hn
    by_cases hpl : p < len
    · rw [streamDataFrom, dif_pos ⟨hpl, hcs⟩]
      simp only [FakeGridFsItem.seek, FakeGridFsItem.read, List.length_take,
        List.length_drop]
      rw [if_pos (by omega)]
      obtain ⟨chunks, hok, hsizes, hflat⟩ :=
        ih (len - (p + min cs (len - p))) (by omega)
          (p + min cs (len - p)) (p + min cs (len - p)) (by omega) rfl
      rw [hok]
      refine ⟨_, rfl, ?_, ?_⟩
      · rw [List.map_cons, hsizes, List.length_take, List.length_drop,
          chunkSizes_eq_cons cs (len - p) hcs (by omega)]
        congr 1
        · omega
        · congr 1
          omega
      · rw [List.flatten_cons, hflat]
        have h1 : len - p = min cs (len - p) + (len - (p + min cs (len - p))) := by
          omega
        conv_rhs => rw [h1, List.take_add]
        rw [List.drop_drop]
    · have hple : p = len := by omega
      rw [streamDataFrom, dif_neg (by omega)]
      exact ⟨[], rfl, by simp [hn.symm, hple, chunkSizes_zero], by simp [hple]⟩

/-- Master lemma for `streamRangeFrom` on an adequate source: with the cursor
at `position ≤ last_byte + 1` and the source holding more than `last_byte`
bytes, the range stream succeeds, its chunk sizes follow `chunkSizes`, and its
concatenation is the slice from the cursor up to and including `last_byte`. -/
lemma streamRangeFrom_ok (cs last : Nat) (data : List Nat) (hcs : 0 < cs)
    (hlast : last < data.length) :
    ∀ n p, p ≤ last + 1 → last + 1 - p = n →
      ∃ chunks, streamRangeFrom cs last ⟨p, data⟩ p = .ok chunks ∧
        chunks.map List.length = chunkSizes cs (last + 1 - p) ∧
        chunks.flatten = (data.drop p).take (last + 1 - p) := by
  intro n
  induction n using Nat.strong_induction_on with
  | _ n ih =>
    intro p hp hn
    by_cases hpl : p ≤ last
    · rw [streamRangeFrom, dif_pos ⟨hpl, hcs⟩]
      simp only [FakeGridFsItem.read, List.length_take, List.length_drop]
      rw [if_pos (by omega)]
      obtain ⟨chunks, hok, hsizes, hflat⟩ :=
        ih (last + 1 - (p + min cs (last + 1 - p))) (by omega)
          (p + min cs (last + 1 - p)) (by omega) rfl
      rw [hok]
      refine ⟨_, rfl, ?_, ?_⟩
      · rw [List.map_cons, hsizes, List.length_take, List.length_drop,
          chunkSizes_eq_cons cs (last + 1 - p) hcs (by omega)]
        congr 1
        · omega
        · congr 1
          omega
      · rw [List.flatten_cons, hflat]
        have h1 : last + 1 - p
            = min cs (last + 1 - p) + (last + 1 - (p + min cs (last + 1 - p))) := by
          omega
        conv_rhs => rw [h1, List.take_add]
        rw [List.drop_drop]
    · have hple : p = last + 1 := by omega
      rw [streamRangeFrom, dif_neg (by omega)]
      exact ⟨[], rfl, by simp [hn.symm, hple, chunkSizes_zero], by simp [hple]⟩

/-- On an inadequate source (fewer bytes than the declared length), the full
stream reports a short read instead of silently truncating. -/
lemma streamDataFrom_short (cs len : Nat) (data : List Nat) (hcs : 0 < cs)
    (hshort : data.length < len) :
    ∀ n c p, p < len → len - p = n →
      streamDataFrom cs len ⟨c, data⟩ p = .error "short read" := by
  intro n
  induction n using Nat.strong_induction_on with
  | _ n ih =>
    intro c p hp hn
    rw [streamDataFrom, dif_pos ⟨hp, hcs⟩]
    simp only [FakeGridFsItem.seek, FakeGridFsItem.read, List.length_take,
      List.length_drop]
    by_cases hfull : min (min cs (len - p)) (data.length - p) = min cs (len - p)
    · rw [if_pos hfull]
      rw [ih (len - (p + min cs (len - p))) (by omega) (p + min cs (len - p))
        (p + min cs (len - p)) (by omega) rfl]
    · rw [if_neg hfull]

/-- On a source with no byte at offset `last_byte`, the range stream reports a
short read instead of silently truncating. -/
lemma streamRangeFrom_short (cs last : Nat) (data : List Nat) (hcs : 0 < cs)
    (hshort : data.length ≤ last) :
    ∀ n p, p ≤ last → last + 1 - p = n →
      streamRangeFrom cs last ⟨p, data⟩ p = .error "short read" := by
  intro n
  induction n using Nat.strong_induction_on with
  | _ n ih =>
    intro p hp hn
    rw [streamRangeFrom, dif_pos ⟨hp, hcs⟩]
    simp only [FakeGridFsItem.read, List.length_take, List.length_drop]
    by_cases hfull :
        min (min cs (last + 1 - p)) (data.length - p) = min cs (last + 1 - p)
    · rw [if_pos hfull]
      rw [ih (last + 1 - (p + min cs (last + 1 - p))) (by omega)
        (p + min cs (last + 1 - p)) (by omega) rfl]
    · rw [if_neg hfull]

lemma stream_chunk_size_pos : 0 < STREAM_DATA_CHUNK_SIZE := by
  norm_num [STREAM_DATA_CHUNK_SIZE]

/-! ## Claim theorems -/

/-- **C1.** For every declared content length (with the source holding at
least that many bytes, as in the tests where `length = len(data)`), the total
number of bytes yielded by `stream_data()` — the sum of the chunk lengths —
equals the declared length; in particular, a declared length of `0` yields an
empty sequence of zero chunks. -/
theorem stream_data_total_bytes (loc nm ct : String) (data : List Nat)
    (c len : Nat) (hlen : len ≤ data.length) :
    ∃ chunks,
      (StaticContentStream.mk loc nm ct ⟨c, data⟩ len).stream_data
        = .ok chunks ∧
      (chunks.map List.length).sum = len ∧
      (len = 0 → chunks = []) := by
  obtain ⟨chunks, hok, hsizes, hflat⟩ :=
    streamDataFrom_ok STREAM_DATA_CHUNK_SIZE len data stream_chunk_size_pos hlen
      (len - 0) c 0 (by omega) rfl
  rw [Nat.sub_zero] at hsizes
  refine ⟨chunks, hok, ?_, ?_⟩
  · rw [hsizes, chunkSizes_sum _ stream_chunk_size_pos]
  · intro h0
    rw [h0, chunkSizes_zero] at hsizes
    exact List.map_eq_nil_iff.mp hsizes

/-- Witness for C1: a concrete 5-byte content streams to exactly 5 bytes, and
a 0-length content to zero chunks. -/
theorem stream_data_total_bytes_witness :
    (5 ≤ (List.replicate 5 7).length ∧
      ∃ chunks,
        (StaticContentStream.mk "loc" "name" "type" ⟨0, List.replicate 5 7⟩
          5).stream_data = .ok chunks ∧
        (chunks.map List.length).sum = 5 ∧ (5 = 0 → chunks = [])) ∧
    (0 ≤ ([] : List Nat).length ∧
      ∃ chunks,
        (StaticContentStream.mk "loc" "name" "type" ⟨0, []⟩ 0).stream_data
          = .ok chunks ∧
        (chunks.map List.length).sum = 0 ∧ (0 = 0 → chunks = [])) :=
  ⟨⟨by simp,
    stream_data_total_bytes "loc" "name" "type" (List.replicate 5 7) 0 5
      (by simp)⟩,
   ⟨by simp,
    stream_data_total_bytes "loc" "name" "type" [] 0 0 (by simp)⟩⟩

/-- **C2.** For every valid inclusive range
`0 ≤ first_byte ≤ last_byte < length` (with the source holding the declared
number of bytes), the total number of bytes yielded by
`stream_data_in_range(first_byte, last_byte)` equals
`last_byte - first_byte + 1`. -/
theorem stream_data_in_range_total_bytes (loc nm ct : String)
    (data : List Nat) (c len first_byte last_byte : Nat)
    (h1 : first_byte ≤ last_byte) (h2 : last_byte < len)
    (hlen : len ≤ data.length) :
    ∃ chunks,
      (StaticContentStream.mk loc nm ct ⟨c, data⟩ len).stream_data_in_range
        first_byte last_byte = .ok chunks ∧
      (chunks.map List.length).sum = last_byte - first_byte + 1 := by
  obtain ⟨chunks, hok, hsizes, hflat⟩ :=
    streamRangeFrom_ok STREAM_DATA_CHUNK_SIZE last_byte data
      stream_chunk_size_pos (by omega) (last_byte + 1 - first_byte) first_byte
      (by omega) rfl
  refine ⟨chunks, hok, ?_⟩
  rw [hsizes, chunkSizes_sum _ stream_chunk_size_pos]
  omega

/-- Witness for C2: the test scenario `first_byte = 100`, `last_byte = 1500`
on a 3000-byte content yields 1401 bytes. -/
theorem stream_data_in_range_total_bytes_witness :
    100 ≤ 1500 ∧ 1500 < 3000 ∧ 3000 ≤ (List.replicate 3000 7).length ∧
    ∃ chunks,
      (StaticContentStream.mk "loc" "name" "type" ⟨0, List.replicate 3000 7⟩
        3000).stream_data_in_range 100 1500 = .ok chunks ∧
      (chunks.map List.length).sum = 1500 - 100 + 1 :=
  ⟨by norm_num, by norm_num, by simp only [List.length_replicate]; omega,
   stream_data_in_range_total_bytes "loc" "name" "type"
     (List.replicate 3000 7) 0 3000 100 1500 (by norm_num) (by norm_num)
     (by simp only [List.length_replicate]; omega)⟩

/-- **C3.** Concatenating, in order, all chunks yielded by `stream_data()`
reproduces the underlying byte content exactly (declared length =
`len(data)`, as in the tests), and for every valid range `(a, b)`
concatenating the chunks of `stream_data_in_range(a, b)` equals the Python
slice `content[a:b+1]`, i.e. `(data.drop a).take (b + 1 - a)`. -/
theorem stream_chunks_roundtrip (loc nm ct : String) (data : List Nat)
    (c a b : Nat) (h1 : a ≤ b) (h2 : b < data.length) :
    (∃ chunks,
      (StaticContentStream.mk loc nm ct ⟨c, data⟩ data.length).stream_data
        = .ok chunks ∧
      chunks.flatten = data) ∧
    (∃ chunks,
      (StaticContentStream.mk loc nm ct ⟨c, data⟩
        data.length).stream_data_in_range a b = .ok chunks ∧
      chunks.flatten = (data.drop a).take (b + 1 - a)) := by
  constructor
  · obtain ⟨chunks, hok, hsizes, hflat⟩ :=
      streamDataFrom_ok STREAM_DATA_CHUNK_SIZE data.length data
        stream_chunk_size_pos le_rfl (data.length - 0) c 0 (by omega) rfl
    refine ⟨chunks, hok, ?_⟩
    rw [hflat]
    simp
  · obtain ⟨chunks, hok, hsizes, hflat⟩ :=
      streamRangeFrom_ok STREAM_DATA_CHUNK_SIZE b data stream_chunk_size_pos
        h2 (b + 1 - a) a (by omega) rfl
    exact ⟨chunks, hok, hflat⟩

/-- Witness for C3: round-trip on a concrete 4-byte content and its range
`[1, 2]`. -/
theorem stream_chunks_roundtrip_witness :
    1 ≤ 2 ∧ 2 < ([3, 5, 8, 13] : List Nat).length ∧
    ((∃ chunks,
      (StaticContentStream.mk "loc" "name" "type" ⟨0, [3, 5, 8, 13]⟩
        ([3, 5, 8, 13] : List Nat).length).stream_data = .ok chunks ∧
      chunks.flatten = [3, 5, 8, 13]) ∧
    (∃ chunks,
      (StaticContentStream.mk "loc" "name" "type" ⟨0, [3, 5, 8, 13]⟩
        ([3, 5, 8, 13] : List Nat).length).stream_data_in_range 1 2
        = .ok chunks ∧
      chunks.flatten = (([3, 5, 8, 13] : List Nat).drop 1).take (2 + 1 - 1))) :=
  ⟨by norm_num, by simp,
   stream_chunks_roundtrip "loc" "name" "type" [3, 5, 8, 13] 0 1 2
     (by norm_num) (by simp)⟩

/-- **C4.** For content of length 3000 with the default chunk size of 1024
bytes, `stream_data()` yields exactly three chunks whose sizes, in order, are
`[1024, 1024, 952]`: every chunk before the last is full and the final chunk
holds exactly the remaining bytes. -/
theorem stream_data_chunk_sizes_3000 (loc nm ct : String) (data : List Nat)
    (c : Nat) (hdata : data.length = 3000) :
    ∃ chunks,
      (StaticContentStream.mk loc nm ct ⟨c, data⟩ 3000).stream_data
        = .ok chunks ∧
      chunks.map List.length = [1024, 1024, 952] := by
  obtain ⟨chunks, hok, hsizes, hflat⟩ :=
    streamDataFrom_ok STREAM_DATA_CHUNK_SIZE 3000 data stream_chunk_size_pos
      (by omega) (3000 - 0) c 0 (by omega) rfl
  refine ⟨chunks, hok, ?_⟩
  rw [hsizes]
  show chunkSizes 1024 (3000 - 0) = [1024, 1024, 952]
  rw [Nat.sub_zero]
  rw [chunkSizes_eq_cons 1024 3000 (by norm_num) (by norm_num)]
  norm_num
  rw [chunkSizes_eq_cons 1024 1976 (by norm_num) (by norm_num)]
  norm_num
  rw [chunkSizes_eq_cons 1024 952 (by norm_num) (by norm_num)]
  norm_num [chunkSizes_zero]

/-- Witness for C4: the chunk-size profile on a concrete 3000-byte content. -/
theorem stream_data_chunk_sizes_3000_witness :
    (List.replicate 3000 7).length = 3000 ∧
    ∃ chunks,
      (StaticContentStream.mk "loc" "name" "type" ⟨0, List.replicate 3000 7⟩
        3000).stream_data = .ok chunks ∧
      chunks.map List.length = [1024, 1024, 952] :=
  ⟨by simp only [List.length_replicate],
   stream_data_chunk_sizes_3000 "loc" "name" "type" (List.replicate 3000 7) 0
     (by simp only [List.length_replicate])⟩

/-- **C5.** If the source holds fewer bytes than the stream is to deliver —
so that before the cumulative byte count reaches the declared length
(`stream_data`) or `last_byte` (`stream_data_in_range`) some read returns
fewer bytes than requested — the stream surfaces a short-read error to the
consumer instead of terminating silently with a truncated stream. -/
theorem stream_short_read_surfaces (loc nm ct : String) (data : List Nat)
    (c len first_byte last_byte : Nat) :
    (data.length < len →
      (StaticContentStream.mk loc nm ct ⟨c, data⟩ len).stream_data
        = .error "short read") ∧
    (first_byte ≤ last_byte → data.length ≤ last_byte →
      (StaticContentStream.mk loc nm ct ⟨c, data⟩ len).stream_data_in_range
        first_byte last_byte = .error "short read") := by
  constructor
  · intro hshort
    exact streamDataFrom_short STREAM_DATA_CHUNK_SIZE len data
      stream_chunk_size_pos hshort (len - 0) c 0 (by omega) rfl
  · intro h1 hshort
    exact streamRangeFrom_short STREAM_DATA_CHUNK_SIZE last_byte data
      stream_chunk_size_pos hshort (last_byte + 1 - first_byte) first_byte h1
      rfl

/-- Witness for C5: a 3-byte source with declared length 5 errors out, as
does the range `[0, 4]` on the same source. -/
theorem stream_short_read_surfaces_witness :
    (([1, 2, 3] : List Nat).length < 5 ∧
      (StaticContentStream.mk "loc" "name" "type" ⟨0, [1, 2, 3]⟩
        5).stream_data = .error "short read") ∧
    (0 ≤ 4 ∧ ([1, 2, 3] : List Nat).length ≤ 4 ∧
      (StaticContentStream.mk "loc" "name" "type" ⟨0, [1, 2, 3]⟩
        5).stream_data_in_range 0 4 = .error "short read") :=
  ⟨⟨by simp,
    (stream_short_read_surfaces "loc" "name" "type" [1, 2, 3] 0 5 0 4).1
      (by simp)⟩,
   ⟨by norm_num, by simp,
    (stream_short_read_surfaces "loc" "name" "type" [1, 2, 3] 0 5 0 4).2
      (by norm_num) (by simp)⟩⟩

/-- **C6.** `FakeGridFsItem` satisfies the byte-source contract: `seek(p)`
sets the cursor to exactly `p`; `read(n)` returns exactly
`data[cursor:cursor+n]` — hence at most `n` bytes, and fewer (namely
`min n (len(data) - cursor)`) when less data remains past the cursor — and
always advances the cursor by `n`, even when fewer than `n` bytes were
actually returned. -/
theorem fakeGridFsItem_contract (item : FakeGridFsItem) (p n : Nat) :
    (item.seek p).cursor = p ∧
    (item.seek p).data = item.data ∧
    (item.read n).1 = (item.data.drop item.cursor).take n ∧
    (item.read n).1.length = min n (item.data.length - item.cursor) ∧
    (item.read n).1.length ≤ n ∧
    (item.read n).2.cursor = item.cursor + n ∧
    (item.read n).2.data = item.data := by
  refine ⟨rfl, rfl, rfl, ?_, ?_, rfl, rfl⟩
  · simp [FakeGridFsItem.read]
  · simp [FakeGridFsItem.read]

/-- **C7.** A `StaticContent` constructed with no thumbnail location —
whether passed explicitly as `None` or omitted — has a `thumbnail_location`
that is `None` itself, not a placeholder structure with all-`None` fields. -/
theorem thumbnail_none_stays_none (location name content_type data : String)
    (last_modified_at import_path : Option String) :
    (StaticContent.make location name content_type data last_modified_at none
      import_path).thumbnail_location = none ∧
    (StaticContent.makeDefault location name content_type
      data).thumbnail_location = none :=
  ⟨rfl, rfl⟩

/-- A field whose reflective handler lookup fails and which is not covered by
the custom form leaves one loop iteration's accumulator unchanged. -/
lemma requiredFieldsStep_skips (ff : FormFields) (v : RequiredFieldsView)
    (field : String)
    (hattr : ff.attrs ("add_" ++ field ++ "_field") = none)
    (hcust : field ∉ v.custom_form_fields)
    (acc : List (String × String)) :
    requiredFieldsStep ff v acc field = acc := by
  unfold requiredFieldsStep
  rw [if_neg (by tauto), hattr]

/-- One loop iteration adds only pairs keyed by the field it processes. -/
lemma requiredFieldsStep_keys (ff : FormFields) (v : RequiredFieldsView)
    (f field : String) (hf : f ≠ field) (val : String)
    (acc : List (String × String)) (hacc : (field, val) ∉ acc) :
    (field, val) ∉ requiredFieldsStep ff v acc f := by
  unfold requiredFieldsStep
  by_cases hc : v.custom_form_fields ≠ [] ∧ f ∈ v.custom_form_fields
  · rw [if_pos hc]
    intro hmem
    rcases List.mem_append.mp hmem with h | h
    · exact hacc h
    · simp only [List.mem_singleton, Prod.mk.injEq] at h
      exact hf h.1.symm
  · rw [if_neg hc]
    cases hattrf : ff.attrs ("add_" ++ f ++ "_field") with
    | none => exact hacc
    | some handler =>
      dsimp only
      by_cases hhc : f = "honor_code"
      · rw [if_pos hhc]
        intro hmem
        rcases List.mem_append.mp hmem with h | h
        · exact hacc h
        · simp only [List.mem_singleton, Prod.mk.injEq] at h
          exact hf h.1.symm
      · rw [if_neg hhc]
        intro hmem
        rcases List.mem_append.mp hmem with h | h
        · exact hacc h
        · simp only [List.mem_singleton, Prod.mk.injEq] at h
          exact hf h.1.symm

/-- Over any tail of configured fields, a field with no reflective handler
and no custom-form coverage never enters the accumulated response. -/
lemma requiredFields_foldl_not_mem (ff : FormFields) (v : RequiredFieldsView)
    (field : String)
    (hattr : ff.attrs ("add_" ++ field ++ "_field") = none)
    (hcust : field ∉ v.custom_form_fields) :
    ∀ (fields : List String) (acc : List (String × String)),
      (∀ val, (field, val) ∉ acc) →
      ∀ val, (field, val) ∉ fields.foldl (requiredFieldsStep ff v) acc := by
  intro fields
  induction fields with
  | nil => intro acc hacc val; exact hacc val
  | cons f fs ih =>
    intro acc hacc val
    rw [List.foldl_cons]
    refine ih _ (fun val' => ?_) val
    by_cases hf : f = field
    · subst hf
      rw [requiredFieldsStep_skips ff v f hattr hcust]
      exact hacc val'
    · exact requiredFieldsStep_keys ff v f field hf val' acc (hacc val')

/-- Over any tail of configured fields, dropping every occurrence of a field
with no reflective handler and no custom-form coverage does not change the
accumulated response. -/
lemma requiredFields_foldl_filter (ff : FormFields) (v : RequiredFieldsView)
    (field : String)
    (hattr : ff.attrs ("add_" ++ field ++ "_field") = none)
    (hcust : field ∉ v.custom_form_fields) :
    ∀ (fields : List String) (acc : List (String × String)),
      fields.foldl (requiredFieldsStep ff v) acc
        = (fields.filter (fun f => f ≠ field)).foldl
            (requiredFieldsStep ff v) acc := by
  intro fields
  induction fields with
  | nil => intro acc; rfl
  | cons f fs ih =>
    intro acc
    by_cases hf : f = field
    · subst hf
      rw [List.foldl_cons, requiredFieldsStep_skips ff v f hattr hcust]
      have hfil : List.filter (fun g => decide (g ≠ f)) (f :: fs)
          = List.filter (fun g => decide (g ≠ f)) fs := by simp
      rw [hfil]
      exact ih acc
    · rw [List.foldl_cons]
      have hfil : List.filter (fun g => decide (g ≠ field)) (f :: fs)
          = f :: List.filter (fun g => decide (g ≠ field)) fs := by simp [hf]
      rw [hfil, List.foldl_cons]
      exact ih _

/-- **C8.** In `RequiredFieldsView.get`, a configured field not covered by
the custom extension form is dispatched by the reflective lookup of
`add_{field}_field` on the `form_fields` module; when that lookup yields
`None`, the field is silently omitted from the response mapping — it never
appears in the response, and the response is exactly what it would be had
the field not been configured at all — with no error raised for that
field. -/
theorem required_fields_missing_handler_omitted (ff : FormFields)
    (v : RequiredFieldsView) (field : String)
    (hattr : ff.attrs ("add_" ++ field ++ "_field") = none)
    (hcust : field ∉ v.custom_form_fields) :
    (∀ val, (field, val) ∉ requiredFieldsResponse ff v) ∧
    requiredFieldsResponse ff v
      = requiredFieldsResponse ff
          { v with valid_fields := v.valid_fields.filter (fun f => f ≠ field) } := by
  constructor
  · exact requiredFields_foldl_not_mem ff v field hattr hcust v.valid_fields
      [] (fun val h => by cases h)
  · exact requiredFields_foldl_filter ff v field hattr hcust v.valid_fields []

/-- Witness for C8: with a `form_fields` module exposing no attribute and a
single configured field `country` outside the custom form, the field is
absent from the response. -/
theorem required_fields_missing_handler_omitted_witness :
    (FormFields.mk (fun _ => none) (fun _ => "ext")).attrs
        ("add_" ++ "country" ++ "_field") = none ∧
    "country" ∉ ([] : List String) ∧
    ((∀ val, ("country", val) ∉
        requiredFieldsResponse (FormFields.mk (fun _ => none) (fun _ => "ext"))
          (RequiredFieldsView.mk ["country"] [] none)) ∧
      requiredFieldsResponse (FormFields.mk (fun _ => none) (fun _ => "ext"))
          (RequiredFieldsView.mk ["country"] [] none)
        = requiredFieldsResponse
            (FormFields.mk (fun _ => none) (fun _ => "ext"))
            { RequiredFieldsView.mk ["country"] [] none with
                valid_fields :=
                  (RequiredFieldsView.mk ["country"] [] none).valid_fields.filter
                    (fun f => f ≠ "country") }) :=
  ⟨rfl, by simp,
   required_fields_missing_handler_omitted
     (FormFields.mk (fun _ => none) (fun _ => "ext"))
     (RequiredFieldsView.mk ["country"] [] none) "country" rfl (by simp)⟩

/-- **C9.** For every non-`None` course key, `get_course_hash_value` returns
the (abstracted) MD5 integer of the key's string form modulo 100 — a value in
`[0, 100)` — and for `None` it returns the out-of-bound value `100`, which
can never satisfy a strict threshold comparison against values at most
100. -/
theorem get_course_hash_value_spec (md5_int_of : String → Nat) :
    (∀ key, get_course_hash_value md5_int_of (some key) = md5_int_of key % 100
      ∧ get_course_hash_value md5_int_of (some key) < 100) ∧
    get_course_hash_value md5_int_of none = 100 ∧
    (∀ threshold, threshold ≤ 100 →
      ¬ get_course_hash_value md5_int_of none < threshold) := by
  refine ⟨fun key => ⟨rfl, Nat.mod_lt _ (by norm_num)⟩, rfl, ?_⟩
  intro threshold hth
  have h : get_course_hash_value md5_int_of none = 100 := rfl
  omega

/-- Witness for C9: a concrete hash function and the maximal threshold
100. -/
theorem get_course_hash_value_spec_witness :
    get_course_hash_value (fun _ => 123456) (some "course-v1:edX+Demo+2024")
        = 123456 % 100 ∧
    get_course_hash_value (fun _ => 123456) none = 100 ∧
    (100 ≤ 100 ∧
      ¬ get_course_hash_value (fun _ => 123456) none < 100) :=
  ⟨((get_course_hash_value_spec (fun _ => 123456)).1
      "course-v1:edX+Demo+2024").1,
   (get_course_hash_value_spec (fun _ => 123456)).2.1,
   le_refl 100,
   (get_course_hash_value_spec (fun _ => 123456)).2.2 100 (le_refl 100)⟩

/-- **C10.** With the financial-assistance configuration enabled and a
response status outside the explicitly handled set (not 200/400 for
`is_eligible_for_financial_aid`; not 200/400/404 for
`get_financial_assistance_application_status`), both functions fall off the
end of their conditional chains and return `None` instead of a
`(bool, message)` pair. -/
theorem financial_assistance_unhandled_status_none (response : FAResponse) :
    (response.status_code ≠ 200 → response.status_code ≠ 400 →
      is_eligible_for_financial_aid true response = none) ∧
    (response.status_code ≠ 200 → response.status_code ≠ 400 →
      response.status_code ≠ 404 →
      get_financial_assistance_application_status true response = none) := by
  constructor
  · intro h200 h400
    simp [is_eligible_for_financial_aid, HTTP_200_OK, HTTP_400_BAD_REQUEST,
      h200, h400]
  · intro h200 h400 h404
    simp [get_financial_assistance_application_status, HTTP_200_OK,
      HTTP_400_BAD_REQUEST, HTTP_404_NOT_FOUND, h200, h400, h404]

/-- Witness for C10: a 500 response yields `none` from both functions. -/
theorem financial_assistance_unhandled_status_none_witness :
    ((500 : Nat) ≠ 200 ∧ (500 : Nat) ≠ 400 ∧ (500 : Nat) ≠ 404) ∧
    is_eligible_for_financial_aid true
        (FAResponse.mk 500 false "r" "m" "b") = none ∧
    get_financial_assistance_application_status true
        (FAResponse.mk 500 false "r" "m" "b") = none :=
  ⟨⟨by norm_num, by norm_num, by norm_num⟩,
   (financial_assistance_unhandled_status_none
       (FAResponse.mk 500 false "r" "m" "b")).1 (by norm_num) (by norm_num),
   (financial_assistance_unhandled_status_none
       (FAResponse.mk 500 false "r" "m" "b")).2 (by norm_num) (by norm_num)
     (by norm_num)⟩

end EdxPlatform
